import Mathlib

/-!
# Verification of the arbitrage detection engine

A shallow embedding of `engine.py` (`ArbitrageEngine.find_opportunities`)
from the repository, together with proofs of the specified properties.

Numeric values carried by tickers and fee schedules are modelled as `ℚ`.
Python dictionaries holding configuration are modelled as association
lists keyed by `String`, with `dict.get(k, d)` becoming an
`Option`-valued lookup followed by `getD`.
-/

namespace Arbitrage

/-- The payload of a per-provider fetch result that is a Python dict
(`engine.py` line 43 inspects `'error' in res`, `res.get('bid')`,
`res.get('ask')`).  `bid`/`ask` are `none` when the key is absent
(`dict.get` returns `None`); a numeric value `0` is falsy in Python,
which the truthiness test below reflects. -/
structure TickerDict where
  hasError : Bool
  bid : Option ℚ
  ask : Option ℚ
deriving DecidableEq, Repr

/-- One element of the `asyncio.gather(…, return_exceptions=True)` result
list (`engine.py` line 38): either a captured exception (any non-dict
value) or a dict. -/
inductive FetchResult where
  | exn (msg : String)
  | dict (d : TickerDict)
deriving DecidableEq, Repr

/-- Python truthiness of `res.get('bid')` / `res.get('ask')` on a
numeric-or-missing value: `None` and `0` are falsy, every other number
(including negatives) is truthy. -/
def truthy : Option ℚ → Bool
  | none => false
  | some v => v != 0

/-- A ticker that survived the validity filter, tagged with its provider
name (`engine.py` lines 43–46: `res['provider_name'] = self.providers[i].name`). -/
structure ValidTicker where
  provider : String
  bid : ℚ
  ask : ℚ
deriving DecidableEq, Repr

/-- The per-result validity test of `engine.py` line 43:
`isinstance(res, dict) and 'error' not in res and res.get('ask') and res.get('bid')`.
A passing result is turned into a `ValidTicker` carrying its provider's
name; a failing one is silently dropped (the logging `else` branch in
lines 47–48 is commented out in the source). -/
def tickerOf : String × FetchResult → Option ValidTicker
  | (_, .exn _) => none
  | (name, .dict d) =>
    if !d.hasError && truthy d.ask && truthy d.bid then
      some ⟨name, d.bid.getD 0, d.ask.getD 0⟩
    else none

/-- The filtering loop of `engine.py` lines 41–48: the fetch results are
aligned positionally with the providers, and only results passing
`tickerOf` are kept. -/
def validTickers (prs : List (String × FetchResult)) : List ValidTicker :=
  prs.filterMap tickerOf

/-- One venue's fee entry, e.g. `{'taker': 0.001, 'withdrawal_fees': {'BTC': 0.0005}}`.
Both keys are optional (`engine.py` uses `.get('taker', 0.002)` and
`.get('withdrawal_fees', {})`). -/
structure FeeEntry where
  taker : Option ℚ
  withdrawalFees : Option (List (String × ℚ))
deriving DecidableEq, Repr

/-- The `fees` configuration dict, keyed by lowercase venue name plus an
optional `"default"` entry (`engine.py` lines 18–19, 68–70). -/
structure FeesConfig where
  entries : List (String × FeeEntry)
deriving DecidableEq, Repr

/-- `dict.get(k)` on an association list. -/
def lookup {β : Type} (m : List (String × β)) (k : String) : Option β :=
  (m.find? (fun p => p.1 == k)).map (fun p => p.2)

/-- `self.fees_config.get(name)`. -/
def FeesConfig.find (c : FeesConfig) (k : String) : Option FeeEntry :=
  lookup c.entries k

/-- The Python empty dict `{}` used as ultimate fallback for a fee entry. -/
def emptyEntry : FeeEntry := ⟨none, none⟩

/-- `default_fees = self.fees_config.get('default', {})` (`engine.py` line 68). -/
def FeesConfig.defaultFees (c : FeesConfig) : FeeEntry :=
  (c.find "default").getD emptyEntry

/-- Python's `str.lower()` on a venue name, applied character by
character (venue names are ASCII identifiers such as `'Binance'`). -/
def pyLower (s : String) : String :=
  String.mk (s.data.map Char.toLower)

/-- `self.fees_config.get(provider_name.lower(), default_fees)`
(`engine.py` lines 69–70). -/
def FeesConfig.feesFor (c : FeesConfig) (name : String) : FeeEntry :=
  (c.find (pyLower name)).getD c.defaultFees

/-- `fees.get('taker', 0.002)` (`engine.py` lines 74 and 79); `1/500 = 0.002`. -/
def FeeEntry.takerRate (e : FeeEntry) : ℚ :=
  e.taker.getD (1/500)

/-- `buy_fees.get('withdrawal_fees', {}).get(base_asset, 0.0)`
(`engine.py` lines 84–87). -/
def FeeEntry.withdrawalFee (e : FeeEntry) (asset : String) : ℚ :=
  (lookup (e.withdrawalFees.getD []) asset).getD 0

/-- `base_asset = symbol.split('/')[0]` (`engine.py` line 83): the
longest prefix of the symbol before its first slash, or the whole symbol
when it contains none (`Char.ofNat 47` is the slash character). -/
def baseAsset (symbol : String) : String :=
  String.mk (symbol.data.takeWhile (fun c => c ≠ Char.ofNat 47))

/-- All intermediate quantities of the fee calculation block,
`engine.py` lines 60–93. -/
structure PairEcon where
  buyPrice : ℚ
  sellPrice : ℚ
  buyFeeUsd : ℚ
  totalCostUsd : ℚ
  sellFeeUsd : ℚ
  netRevenueUsd : ℚ
  withdrawalFeeAssetAmount : ℚ
  withdrawalFeeUsd : ℚ
  netProfitUsd : ℚ
deriving DecidableEq, Repr

/-- The fee calculation of `engine.py` lines 60–93 for one ordered
(buy, sell) pair: `buy_price = ask`, `sell_price = bid`, taker fees on
both legs, withdrawal fee resolved from the buy venue's schedule and
converted to quote currency at the buy price. -/
def pairEconomics (cfg : FeesConfig) (symbol : String) (buy sell : ValidTicker) : PairEcon :=
  let buyPrice := buy.ask
  let sellPrice := sell.bid
  let buyFees := cfg.feesFor buy.provider
  let sellFees := cfg.feesFor sell.provider
  let buyFeeUsd := buyPrice * buyFees.takerRate
  let totalCostUsd := buyPrice + buyFeeUsd
  let sellFeeUsd := sellPrice * sellFees.takerRate
  let netRevenueUsd := sellPrice - sellFeeUsd
  let wAmt := buyFees.withdrawalFee (baseAsset symbol)
  let wUsd := wAmt * buyPrice
  ⟨buyPrice, sellPrice, buyFeeUsd, totalCostUsd, sellFeeUsd, netRevenueUsd,
    wAmt, wUsd, netRevenueUsd - totalCostUsd - wUsd⟩

/-- Python's `round(x, 4)` tie-breaking (round half to even), on exact
rationals. -/
def roundHalfEven (x : ℚ) : ℤ :=
  let f := ⌊x⌋
  if x - f < 1/2 then f
  else if (1 : ℚ)/2 < x - f then f + 1
  else if f % 2 = 0 then f else f + 1

/-- `round(x, 4)` (`engine.py` lines 108–113). -/
def round4 (x : ℚ) : ℚ :=
  (roundHalfEven (x * 10000) : ℚ) / 10000

/-- The dict appended to `all_opportunities` (`engine.py` lines 104–114). -/
structure Opportunity where
  symbol : String
  buyAt : String
  sellAt : String
  buyPrice : ℚ
  sellPrice : ℚ
  grossProfitUsd : ℚ
  totalFeesUsd : ℚ
  netProfitUsd : ℚ
  profitPercentage : ℚ
deriving DecidableEq, Repr

/-- The body of the per-pair loop, `engine.py` lines 55–115: skip when
`buy_price >= sell_price` (before any fee computation), compute the pair
economics, skip when `net_profit_usd <= 0`, and emit a rounded
opportunity exactly when `profit_percentage > self.profit_threshold`. -/
def emitPair (cfg : FeesConfig) (threshold : ℚ) (symbol : String)
    (buy sell : ValidTicker) : Option Opportunity :=
  let buyPrice := buy.ask
  let sellPrice := sell.bid
  if buyPrice ≥ sellPrice then none
  else
    let e := pairEconomics cfg symbol buy sell
    if e.netProfitUsd ≤ 0 then none
    else
      let pct := e.netProfitUsd / e.totalCostUsd * 100
      if pct > threshold then
        some ⟨symbol, buy.provider, sell.provider,
          round4 buyPrice, round4 sellPrice,
          round4 (sellPrice - buyPrice),
          round4 (e.buyFeeUsd + e.sellFeeUsd + e.withdrawalFeeUsd),
          round4 e.netProfitUsd, round4 pct⟩
      else none

/-- `itertools.permutations(xs, 2)` enumerates ordered pairs of distinct
positions, outer index ascending then inner index ascending. -/
def orderedIdxPairs (n : Nat) : List (Nat × Nat) :=
  (List.range n).flatMap fun i =>
    (List.range n).filterMap fun j =>
      if i = j then none else some (i, j)

/-- `itertools.permutations(valid_tickers, 2)` (`engine.py` line 55). -/
def orderedPairs {α : Type} (xs : List α) : List (α × α) :=
  (orderedIdxPairs xs.length).filterMap fun p =>
    match xs[p.1]?, xs[p.2]? with
    | some x, some y => some (x, y)
    | _, _ => none

/-- The per-symbol scan, `engine.py` lines 50–115: with fewer than two
valid tickers the symbol is skipped (`continue`), otherwise every ordered
pair of distinct positions is evaluated. -/
def scanSymbol (cfg : FeesConfig) (threshold : ℚ) (symbol : String)
    (tickers : List ValidTicker) : List Opportunity :=
  if tickers.length < 2 then []
  else (orderedPairs tickers).filterMap fun p => emitPair cfg threshold symbol p.1 p.2

/-- The engine's scan-relevant state: provider names, the `fees`
configuration and the profit threshold (`engine.py` lines 17–20).
`find_opportunities` reads these fields and never assigns to them. -/
structure Engine where
  providers : List String
  feesConfig : FeesConfig
  profitThreshold : ℚ
deriving DecidableEq, Repr

/-- `find_opportunities` (`engine.py` lines 22–117) given the gathered
fetch results per symbol (`results symbol` is positionally aligned with
`providers`, as produced by `asyncio.gather`): per symbol, filter the
results, then scan the valid tickers, concatenating all opportunities. -/
def Engine.findOpportunities (e : Engine) (results : String → List FetchResult)
    (symbols : List String) : List Opportunity :=
  symbols.flatMap fun symbol =>
    scanSymbol e.feesConfig e.profitThreshold symbol
      (validTickers (e.providers.zip (results symbol)))

/-- One call of the method with the engine state threaded through
explicitly: the method body assigns no attribute of `self` and mutates
no global, so the state after the call is the state before it. -/
def Engine.run (e : Engine) (results : String → List FetchResult)
    (symbols : List String) : Engine × List Opportunity :=
  (e, e.findOpportunities results symbols)

/-! ## Auxiliary lemmas about the pair enumeration -/

lemma length_filterMap_of_isSome {α β : Type} (f : α → Option β) :
    ∀ l : List α, (∀ a ∈ l, (f a).isSome) → (l.filterMap f).length = l.length := by
  intro l
  induction l with
  | nil => intro _; rfl
  | cons a t ih =>
    intro h
    have ha : (f a).isSome := h a (List.mem_cons_self a t)
    obtain ⟨b, hb⟩ := Option.isSome_iff_exists.mp ha
    rw [List.filterMap_cons, hb, List.length_cons,
      ih (fun x hx => h x (List.mem_cons_of_mem a hx))]
    rfl

lemma length_filterMap_ne_idx (i : ℕ) (l : List ℕ) :
    (l.filterMap fun j => if i = j then none else some ((i, j) : ℕ × ℕ)).length
      = l.length - l.count i := by
  induction l with
  | nil => rfl
  | cons a t ih =>
    have hcle := List.count_le_length (a := i) (l := t)
    by_cases h : i = a
    · subst h
      rw [@List.filterMap_cons_none ℕ (ℕ × ℕ)
          (fun j => if i = j then none else some (i, j)) i t (by simp),
        List.count_cons_self, ih, List.length_cons]
      omega
    · rw [@List.filterMap_cons_some ℕ (ℕ × ℕ)
          (fun j => if i = j then none else some (i, j)) a t (i, a) (by simp [h]),
        List.count_cons_of_ne h, List.length_cons, List.length_cons, ih]
      omega

lemma orderedIdxPairs_length (n : ℕ) :
    (orderedIdxPairs n).length = n * (n - 1) := by
  rw [orderedIdxPairs, List.length_flatMap]
  have hmap : (List.range n).map
      (List.length ∘ fun i => (List.range n).filterMap fun j =>
        if i = j then none else some (i, j))
      = (List.range n).map (fun _ => n - 1) := by
    apply List.map_congr_left
    intro i hi
    have hcount : (List.range n).count i = 1 :=
      List.count_eq_one_of_mem (List.nodup_range n) hi
    simp only [Function.comp]
    rw [length_filterMap_ne_idx, hcount, List.length_range]
  rw [hmap]
  have hsum : ∀ (k c : ℕ), ((List.range k).map (fun _ => c)).sum = k * c := by
    intro k c
    induction k with
    | zero => simp
    | succ p ihp =>
      rw [List.range_succ, List.map_append, List.sum_append, ihp]
      simp [Nat.succ_mul]
  exact hsum n (n - 1)

lemma mem_orderedIdxPairs {n i j : ℕ} :
    (i, j) ∈ orderedIdxPairs n ↔ i < n ∧ j < n ∧ i ≠ j := by
  rw [orderedIdxPairs, List.mem_flatMap]
  constructor
  · rintro ⟨a, ha, hmem⟩
    obtain ⟨b, hb, heq⟩ := List.mem_filterMap.mp hmem
    by_cases hab : a = b
    · rw [if_pos hab] at heq; cases heq
    · rw [if_neg hab] at heq
      obtain ⟨rfl, rfl⟩ := Prod.mk.injEq .. ▸ Option.some.inj heq
      exact ⟨List.mem_range.mp ha, List.mem_range.mp hb, hab⟩
  · rintro ⟨hi, hj, hne⟩
    exact ⟨i, List.mem_range.mpr hi,
      List.mem_filterMap.mpr ⟨j, List.mem_range.mpr hj, if_neg hne⟩⟩

lemma orderedPairs_length {α : Type} (xs : List α) :
    (orderedPairs xs).length = xs.length * (xs.length - 1) := by
  rw [orderedPairs, length_filterMap_of_isSome _ _ ?_, orderedIdxPairs_length]
  rintro ⟨i, j⟩ hp
  obtain ⟨hi, hj, -⟩ := mem_orderedIdxPairs.mp hp
  rw [List.getElem?_eq_getElem hi, List.getElem?_eq_getElem hj]
  rfl

lemma mem_orderedPairs {α : Type} {xs : List α} {a b : α} :
    (a, b) ∈ orderedPairs xs ↔
      ∃ (i j : ℕ), i ≠ j ∧ xs[i]? = some a ∧ xs[j]? = some b := by
  rw [orderedPairs, List.mem_filterMap]
  constructor
  · rintro ⟨⟨i, j⟩, hmem, heq⟩
    obtain ⟨hi, hj, hne⟩ := mem_orderedIdxPairs.mp hmem
    rw [List.getElem?_eq_getElem hi, List.getElem?_eq_getElem hj] at heq
    obtain ⟨rfl, rfl⟩ := Prod.mk.injEq .. ▸ Option.some.inj heq
    exact ⟨i, j, hne, List.getElem?_eq_getElem hi, List.getElem?_eq_getElem hj⟩
  · rintro ⟨i, j, hne, ha, hb⟩
    have hi : i < xs.length := by
      by_contra hlt
      rw [List.getElem?_eq_none (Nat.le_of_not_lt hlt)] at ha
      cases ha
    have hj : j < xs.length := by
      by_contra hlt
      rw [List.getElem?_eq_none (Nat.le_of_not_lt hlt)] at hb
      cases hb
    refine ⟨(i, j), mem_orderedIdxPairs.mpr ⟨hi, hj, hne⟩, ?_⟩
    rw [List.getElem?_eq_getElem hi] at ha ⊢
    rw [List.getElem?_eq_getElem hj] at hb ⊢
    rw [Option.some.inj ha, Option.some.inj hb]

lemma orderedPairs_provider_ne {xs : List ValidTicker}
    (hnd : (xs.map ValidTicker.provider).Nodup) :
    ∀ p ∈ orderedPairs xs, p.1.provider ≠ p.2.provider := by
  rintro ⟨a, b⟩ hmem heq
  obtain ⟨i, j, hne, ha, hb⟩ := mem_orderedPairs.mp hmem
  have hi : i < xs.length := by
    by_contra hlt
    rw [List.getElem?_eq_none (Nat.le_of_not_lt hlt)] at ha
    cases ha
  apply hne
  apply @List.getElem?_inj String i j (xs.map ValidTicker.provider)
    (by rw [List.length_map]; exact hi) hnd
  rw [List.getElem?_map, List.getElem?_map, ha, hb, Option.map_some', Option.map_some']
  exact congrArg some heq

/-! ## Concrete fixtures used by witnesses and counterexamples -/

/-- Fee configuration of the spec's symmetry-breaking example: venue `a`
with taker `0.001` and no withdrawal fees, venue `b` with taker `0.002`. -/
def cfgAB : FeesConfig :=
  ⟨[("a", ⟨some (1/1000), none⟩), ("b", ⟨some (2/1000), none⟩)]⟩

/-- Same venues, but venue `a` charges a `0.0005` BTC withdrawal fee. -/
def cfgBTC : FeesConfig :=
  ⟨[("a", ⟨some (1/1000), some [("BTC", 1/2000)]⟩), ("b", ⟨some (2/1000), none⟩)]⟩

/-- Venue `a` with a higher buy-side taker rate than in `cfgAB`. -/
def cfgABhigh : FeesConfig :=
  ⟨[("a", ⟨some (5/1000), none⟩), ("b", ⟨some (2/1000), none⟩)]⟩

/-- Both venues with taker `0`, for the exact-threshold boundary case. -/
def cfgZero : FeesConfig :=
  ⟨[("a", ⟨some 0, none⟩), ("b", ⟨some 0, none⟩)]⟩

/-- Venue `a` quoting `bid 99 / ask 100`. -/
def tickA : ValidTicker := ⟨"a", 99, 100⟩

/-- Venue `b` quoting `bid 102 / ask 103`. -/
def tickB : ValidTicker := ⟨"b", 102, 103⟩

/-- Venue `a` quoting `bid 49900 / ask 50000`. -/
def tickA50k : ValidTicker := ⟨"a", 49900, 50000⟩

/-- Venue `b` quoting `bid 50100 / ask 50200`. -/
def tickB50k : ValidTicker := ⟨"b", 50100, 50200⟩

/-- A successful fetch result from venue `a`. -/
def okA : FetchResult := FetchResult.dict ⟨false, some 99, some 100⟩

/-- A successful fetch result from venue `b`. -/
def okB : FetchResult := FetchResult.dict ⟨false, some 102, some 103⟩

/-! ## Claim theorems -/

/-- C1: for every considered (buy, sell) pair the engine computes
`total_cost = p_b + p_b * f_b`, `net_revenue = p_s - p_s * f_s`,
`withdrawal_fee_usd = w * p_b` (converted at the buy-side price) and
`net_profit = net_revenue - total_cost - withdrawal_fee_usd`, with the
taker rates and the per-asset withdrawal amount `w` resolved from the
venues' schedules; on the spec's examples this yields
`total_cost = 100.1`, `net_revenue = 101.796`, `net_profit = 1.696`, and
`withdrawal_fee_usd = 25` for a `50000` buy ask with `w = 0.0005` —
and that `25` differs from a conversion at the sell-side price. -/
theorem C1_fee_arithmetic :
    (∀ (cfg : FeesConfig) (symbol : String) (buy sell : ValidTicker),
      (pairEconomics cfg symbol buy sell).totalCostUsd
          = buy.ask + buy.ask * (cfg.feesFor buy.provider).takerRate ∧
      (pairEconomics cfg symbol buy sell).netRevenueUsd
          = sell.bid - sell.bid * (cfg.feesFor sell.provider).takerRate ∧
      (pairEconomics cfg symbol buy sell).withdrawalFeeUsd
          = (cfg.feesFor buy.provider).withdrawalFee (baseAsset symbol) * buy.ask ∧
      (pairEconomics cfg symbol buy sell).netProfitUsd
          = (pairEconomics cfg symbol buy sell).netRevenueUsd
              - (pairEconomics cfg symbol buy sell).totalCostUsd
              - (pairEconomics cfg symbol buy sell).withdrawalFeeUsd) ∧
    ((pairEconomics cfgAB "X/USDT" tickA tickB).totalCostUsd = 100.1 ∧
     (pairEconomics cfgAB "X/USDT" tickA tickB).netRevenueUsd = 101.796 ∧
     (pairEconomics cfgAB "X/USDT" tickA tickB).netProfitUsd = 1.696) ∧
    ((pairEconomics cfgBTC "BTC/USDT" tickA50k tickB50k).withdrawalFeeUsd = 25 ∧
     (pairEconomics cfgBTC "BTC/USDT" tickA50k tickB50k).withdrawalFeeUsd
       ≠ (pairEconomics cfgBTC "BTC/USDT" tickA50k tickB50k).withdrawalFeeAssetAmount
           * (pairEconomics cfgBTC "BTC/USDT" tickA50k tickB50k).sellPrice) := by
  refine ⟨fun cfg symbol buy sell => ⟨rfl, rfl, rfl, rfl⟩, ?_, ?_⟩
  · refine ⟨?_, ?_, ?_⟩
    · show (100 : ℚ) + 100 * (1/1000) = 100.1
      norm_num
    · show (102 : ℚ) - 102 * (2/1000) = 101.796
      norm_num
    · show ((102 : ℚ) - 102 * (2/1000)) - (100 + 100 * (1/1000)) - 0 * 100 = 1.696
      norm_num
  · refine ⟨?_, ?_⟩
    · show ((1 : ℚ)/2000) * 50000 = 25
      norm_num
    · show ((1 : ℚ)/2000) * 50000 ≠ (1/2000) * 50100
      norm_num

/-- C2 counterexample: the source's validity test (`engine.py` line 43)
checks only truthiness of `bid` and `ask` and the absence of an
`'error'` key; it never compares `bid` with `ask`, so a quote with
`bid = 110 > ask = 100` IS a member of the grouped-valid set,
contradicting the claim that such a quote never is. -/
theorem C2_counterexample :
    (110 : ℚ) > 100 ∧
    validTickers [("a", FetchResult.dict ⟨false, some 110, some 100⟩)]
      = [⟨"a", 110, 100⟩] :=
  ⟨by norm_num, by decide⟩

/-- C2 amended: a fetch result takes part in scanning iff it is a dict
without an `'error'` key whose `bid` and `ask` are both present and
nonzero (Python truthiness); there is no `bid ≤ ask` (nor positivity)
check, and failing results are silently excluded without an error. -/
theorem C2_validity_filter :
    (∀ (name : String) (d : TickerDict) (b a : ℚ),
      d.bid = some b → d.ask = some a →
      (tickerOf (name, FetchResult.dict d) = some ⟨name, b, a⟩ ↔
        d.hasError = false ∧ b ≠ 0 ∧ a ≠ 0)) ∧
    (∀ (name msg : String), tickerOf (name, FetchResult.exn msg) = none) ∧
    (∀ (name : String) (d : TickerDict), d.bid = none ∨ d.ask = none →
      tickerOf (name, FetchResult.dict d) = none) := by
  refine ⟨?_, fun name msg => rfl, ?_⟩
  · rintro name ⟨he, bid, ask⟩ b a hb ha
    simp only at hb ha
    subst hb
    subst ha
    simp only [tickerOf, truthy, Option.getD_some]
    constructor
    · intro h
      by_cases hhe : he
      · simp [hhe] at h
      · refine ⟨by simp [hhe], ?_, ?_⟩
        · intro hb0
          simp [hb0] at h
        · intro ha0
          simp [ha0] at h
    · rintro ⟨hhe, hb0, ha0⟩
      subst hhe
      simp [hb0, ha0]
  · rintro name ⟨he, bid, ask⟩ h
    rcases h with h | h <;>
      simp only at h <;> subst h <;> simp [tickerOf, truthy]

/-- C2 amended, witness: the bid-110/ask-100 quote from the counterexample
instantiates the filter characterization. -/
theorem C2_validity_filter_witness :
    tickerOf ("a", FetchResult.dict ⟨false, some 110, some 100⟩)
        = some ⟨"a", 110, 100⟩ ↔
      (false = false ∧ (110 : ℚ) ≠ 0 ∧ (100 : ℚ) ≠ 0) :=
  C2_validity_filter.1 "a" ⟨false, some 110, some 100⟩ 110 100 rfl rfl

/-- C3: for a symbol whose valid tickers carry pairwise-distinct venue
names, `itertools.permutations(valid_tickers, 2)` yields exactly
`V·(V−1)` ordered pairs, none of which has the same venue on both sides;
and a symbol with fewer than two valid tickers produces no opportunities
(`engine.py` lines 50–55). -/
theorem C3_pair_enumeration :
    ∀ (cfg : FeesConfig) (thr : ℚ) (sym : String) (tickers : List ValidTicker),
      (orderedPairs tickers).length = tickers.length * (tickers.length - 1) ∧
      ((tickers.map ValidTicker.provider).Nodup →
        ∀ p ∈ orderedPairs tickers, p.1.provider ≠ p.2.provider) ∧
      (tickers.length < 2 → scanSymbol cfg thr sym tickers = []) := by
  intro cfg thr sym tickers
  exact ⟨orderedPairs_length tickers,
    fun h => orderedPairs_provider_ne h,
    fun h => by simp [scanSymbol, h]⟩

/-- C3 witness: three distinctly named venues give `3·2 = 6` directional
pairs, a concrete enumerated pair has distinct venues, and a single-quote
symbol is skipped. -/
theorem C3_pair_enumeration_witness :
    (orderedPairs [(⟨"A", 1, 2⟩ : ValidTicker), ⟨"B", 1, 2⟩, ⟨"C", 1, 2⟩]).length
        = 3 * (3 - 1) ∧
    ((⟨"A", 1, 2⟩ : ValidTicker), (⟨"B", 1, 2⟩ : ValidTicker)).1.provider
        ≠ ((⟨"A", 1, 2⟩ : ValidTicker), (⟨"B", 1, 2⟩ : ValidTicker)).2.provider ∧
    scanSymbol cfgAB 0 "X" [⟨"A", 1, 2⟩] = [] :=
  ⟨(C3_pair_enumeration cfgAB 0 "X" [⟨"A", 1, 2⟩, ⟨"B", 1, 2⟩, ⟨"C", 1, 2⟩]).1,
   (C3_pair_enumeration cfgAB 0 "X" [⟨"A", 1, 2⟩, ⟨"B", 1, 2⟩, ⟨"C", 1, 2⟩]).2.1
     (by decide) (⟨"A", 1, 2⟩, ⟨"B", 1, 2⟩) (by decide),
   (C3_pair_enumeration cfgAB 0 "X" [⟨"A", 1, 2⟩]).2.2 (by decide)⟩

/-- Helper: the per-pair loop body as one guarded emission — the pair
yields an opportunity exactly when the raw spread, positive-profit and
threshold checks all pass, and the emitted record carries the rounded
fields. -/
lemma emitPair_eq (cfg : FeesConfig) (thr : ℚ) (sym : String) (buy sell : ValidTicker) :
    emitPair cfg thr sym buy sell =
      if buy.ask < sell.bid ∧ 0 < (pairEconomics cfg sym buy sell).netProfitUsd ∧
          thr < (pairEconomics cfg sym buy sell).netProfitUsd
                  / (pairEconomics cfg sym buy sell).totalCostUsd * 100 then
        some ⟨sym, buy.provider, sell.provider, round4 buy.ask, round4 sell.bid,
          round4 (sell.bid - buy.ask),
          round4 ((pairEconomics cfg sym buy sell).buyFeeUsd
            + (pairEconomics cfg sym buy sell).sellFeeUsd
            + (pairEconomics cfg sym buy sell).withdrawalFeeUsd),
          round4 (pairEconomics cfg sym buy sell).netProfitUsd,
          round4 ((pairEconomics cfg sym buy sell).netProfitUsd
                  / (pairEconomics cfg sym buy sell).totalCostUsd * 100)⟩
      else none := by
  simp only [emitPair]
  by_cases h1 : buy.ask ≥ sell.bid
  · rw [if_pos h1, if_neg]
    rintro ⟨hlt, -, -⟩
    exact absurd hlt (not_lt.mpr h1)
  · rw [if_neg h1]
    have h1' : buy.ask < sell.bid := lt_of_not_ge h1
    by_cases h2 : (pairEconomics cfg sym buy sell).netProfitUsd ≤ 0
    · rw [if_pos h2, if_neg]
      rintro ⟨-, hpos, -⟩
      exact absurd hpos (not_lt.mpr h2)
    · rw [if_neg h2]
      have h2' : 0 < (pairEconomics cfg sym buy sell).netProfitUsd := lt_of_not_ge h2
      by_cases h3 : (pairEconomics cfg sym buy sell).netProfitUsd
            / (pairEconomics cfg sym buy sell).totalCostUsd * 100 > thr
      · rw [if_pos h3, if_pos ⟨h1', h2', h3⟩]
      · rw [if_neg h3, if_neg]
        rintro ⟨-, -, hthr⟩
        exact h3 hthr

/-- C4: an ordered pair is emitted iff its buy ask is strictly below the
sell bid, the full-precision net profit is strictly positive, and the
full-precision `profit_percentage = net_profit / total_cost * 100` is
strictly above the threshold; a pair with `buy_price ≥ sell_price` is
skipped, as is a pair whose percentage exactly equals the threshold;
and an opportunity appears in the per-symbol scan output exactly when
some enumerated pair emits it. -/
theorem C4_emission_conditions :
    ∀ (cfg : FeesConfig) (thr : ℚ) (sym : String) (buy sell : ValidTicker),
      ((emitPair cfg thr sym buy sell).isSome ↔
        buy.ask < sell.bid ∧ 0 < (pairEconomics cfg sym buy sell).netProfitUsd ∧
          thr < (pairEconomics cfg sym buy sell).netProfitUsd
                  / (pairEconomics cfg sym buy sell).totalCostUsd * 100) ∧
      (buy.ask ≥ sell.bid → emitPair cfg thr sym buy sell = none) ∧
      ((pairEconomics cfg sym buy sell).netProfitUsd
          / (pairEconomics cfg sym buy sell).totalCostUsd * 100 = thr →
        emitPair cfg thr sym buy sell = none) ∧
      (∀ (tickers : List ValidTicker) (opp : Opportunity),
        opp ∈ scanSymbol cfg thr sym tickers ↔
          ¬ tickers.length < 2 ∧
            ∃ p ∈ orderedPairs tickers, emitPair cfg thr sym p.1 p.2 = some opp) := by
  intro cfg thr sym buy sell
  refine ⟨?_, ?_, ?_, ?_⟩
  · rw [emitPair_eq]
    split_ifs with h
    · simpa using h
    · simpa using h
  · intro h
    rw [emitPair_eq, if_neg]
    rintro ⟨hlt, -, -⟩
    exact absurd hlt (not_lt.mpr h)
  · intro h
    rw [emitPair_eq, if_neg]
    rintro ⟨-, -, hthr⟩
    rw [h] at hthr
    exact lt_irrefl thr hthr
  · intro tickers opp
    by_cases h : tickers.length < 2
    · simp [scanSymbol, h]
    · simp [scanSymbol, h, List.mem_filterMap]

/-- C4 witness: with both takers zero, ask 100 and bid 102 give a profit
percentage of exactly 2, excluded at threshold 2; and a pair whose ask
(103) is at least the other side's bid (99) is skipped. -/
theorem C4_emission_conditions_witness :
    emitPair cfgAB 2 "X/USDT" tickB tickA = none ∧
    emitPair cfgZero 2 "X/USDT" tickA tickB = none := by
  refine ⟨(C4_emission_conditions cfgAB 2 "X/USDT" tickB tickA).2.1 ?_,
    (C4_emission_conditions cfgZero 2 "X/USDT" tickA tickB).2.2.1 ?_⟩
  · show (103 : ℚ) ≥ 99
    norm_num
  · show ((102 : ℚ) - 102 * 0 - (100 + 100 * 0) - 0 * 100) / (100 + 100 * 0) * 100 = 2
    norm_num

/-- C5 counterexample: the aggregation step's entire output on a batch
whose third venue's fetch raised is identical to its output on a batch
with no failure at all — the failure is recorded nowhere (the skip log,
`engine.py` lines 47–48, is commented out and `find_opportunities`
returns only opportunities), so no list of (venue, symbol, error)
failure records is returned, contrary to the claim. -/
theorem C5_counterexample :
    validTickers [("a", okA), ("b", okB), ("c", FetchResult.exn "boom")]
        = validTickers [("a", okA), ("b", okB)] ∧
    validTickers [("a", okA), ("b", okB), ("c", FetchResult.exn "boom")]
        = [⟨"a", 99, 100⟩, ⟨"b", 102, 103⟩] :=
  ⟨rfl, rfl⟩

/-- C5 amended: a per-venue fetch failure never aborts the batch — the
filter is total and simply drops the exception entry, returning the
union of all successful valid quotes (exactly the 2 successful ones when
1 of 3 venues errors); the failure is silently discarded and no failure
records are produced. -/
theorem C5_failure_tolerance :
    (∀ (pre post : List (String × FetchResult)) (name msg : String),
      validTickers (pre ++ (name, FetchResult.exn msg) :: post)
        = validTickers (pre ++ post)) ∧
    (validTickers [("a", okA), ("b", okB), ("c", FetchResult.exn "boom")]).length = 2 := by
  refine ⟨fun pre post name msg => ?_, rfl⟩
  simp [validTickers, List.filterMap_append, List.filterMap_cons, tickerOf]

/-- C6: fee resolution is total — a venue with no entry in the fee
configuration resolves to the default schedule, and a withdrawal-fee
lookup for an asset absent from the schedule's map yields `0`; no fee
lookup can fail. -/
theorem C6_fee_resolution :
    ∀ (cfg : FeesConfig) (name asset : String),
      (cfg.find (pyLower name) = none → cfg.feesFor name = cfg.defaultFees) ∧
      (lookup ((cfg.feesFor name).withdrawalFees.getD []) asset = none →
        (cfg.feesFor name).withdrawalFee asset = 0) := by
  intro cfg name asset
  constructor
  · intro h
    rw [FeesConfig.feesFor, h]
    rfl
  · intro h
    rw [FeeEntry.withdrawalFee, h]
    rfl

/-- C6 witness: venue `kraken` is absent from `cfgAB` and resolves to the
default schedule; asset `DOGE` is absent from venue `a`'s withdrawal map
and resolves to fee `0`. -/
theorem C6_fee_resolution_witness :
    cfgAB.feesFor "kraken" = cfgAB.defaultFees ∧
    (cfgAB.feesFor "a").withdrawalFee "DOGE" = 0 :=
  ⟨(C6_fee_resolution cfgAB "kraken" "DOGE").1 rfl,
   (C6_fee_resolution cfgAB "a" "DOGE").2 rfl⟩

/-- Helper: the net profit of a pair written out in terms of the
resolved rates (definitional unfolding of `pairEconomics`). -/
lemma netProfit_formula (cfg : FeesConfig) (sym : String) (buy sell : ValidTicker) :
    (pairEconomics cfg sym buy sell).netProfitUsd
      = sell.bid - sell.bid * (cfg.feesFor sell.provider).takerRate
        - (buy.ask + buy.ask * (cfg.feesFor buy.provider).takerRate)
        - (cfg.feesFor buy.provider).withdrawalFee (baseAsset sym) * buy.ask := rfl

/-- Venue `b` with a higher sell-side taker rate than in `cfgAB`. -/
def cfgBhigh : FeesConfig :=
  ⟨[("a", ⟨some (1/1000), none⟩), ("b", ⟨some (7/1000), none⟩)]⟩

/-- C7: with positive prices, a raw spread, and everything else held
fixed (same resolved withdrawal fee, same opposite-side taker rate), the
computed net profit strictly decreases when the buy venue's taker rate
increases, and likewise when the sell venue's taker rate increases. -/
theorem C7_taker_monotonicity :
    ∀ (cfg cfg' : FeesConfig) (sym : String) (buy sell : ValidTicker),
      0 < buy.ask → 0 < sell.bid → buy.ask < sell.bid →
      (cfg.feesFor buy.provider).withdrawalFee (baseAsset sym)
          = (cfg'.feesFor buy.provider).withdrawalFee (baseAsset sym) →
      (((cfg.feesFor sell.provider).takerRate = (cfg'.feesFor sell.provider).takerRate →
        (cfg.feesFor buy.provider).takerRate < (cfg'.feesFor buy.provider).takerRate →
        (pairEconomics cfg' sym buy sell).netProfitUsd
          < (pairEconomics cfg sym buy sell).netProfitUsd) ∧
       ((cfg.feesFor buy.provider).takerRate = (cfg'.feesFor buy.provider).takerRate →
        (cfg.feesFor sell.provider).takerRate < (cfg'.feesFor sell.provider).takerRate →
        (pairEconomics cfg' sym buy sell).netProfitUsd
          < (pairEconomics cfg sym buy sell).netProfitUsd)) := by
  intro cfg cfg' sym buy sell hb hs hlt hw
  constructor
  · intro hts htb
    rw [netProfit_formula, netProfit_formula, hw, hts]
    have hmul := mul_lt_mul_of_pos_left htb hb
    linarith
  · intro htb hts'
    rw [netProfit_formula, netProfit_formula, hw, htb]
    have hmul := mul_lt_mul_of_pos_left hts' hs
    linarith

/-- C7 witness: raising venue `a`'s (buy-side) taker rate from `0.001`
to `0.005`, or venue `b`'s (sell-side) rate from `0.002` to `0.007`,
strictly lowers the computed net profit of the `ask 100 / bid 102`
pair. -/
theorem C7_taker_monotonicity_witness :
    (pairEconomics cfgABhigh "X/USDT" tickA tickB).netProfitUsd
        < (pairEconomics cfgAB "X/USDT" tickA tickB).netProfitUsd ∧
    (pairEconomics cfgBhigh "X/USDT" tickA tickB).netProfitUsd
        < (pairEconomics cfgAB "X/USDT" tickA tickB).netProfitUsd := by
  constructor
  · refine (C7_taker_monotonicity cfgAB cfgABhigh "X/USDT" tickA tickB ?_ ?_ ?_ rfl).1 rfl ?_
    · show (0 : ℚ) < 100
      norm_num
    · show (0 : ℚ) < 102
      norm_num
    · show (100 : ℚ) < 102
      norm_num
    · show (1 : ℚ)/1000 < 5/1000
      norm_num
  · refine (C7_taker_monotonicity cfgAB cfgBhigh "X/USDT" tickA tickB ?_ ?_ ?_ rfl).2 rfl ?_
    · show (0 : ℚ) < 100
      norm_num
    · show (0 : ℚ) < 102
      norm_num
    · show (100 : ℚ) < 102
      norm_num
    · show (2 : ℚ)/1000 < 7/1000
      norm_num

/-- C8: the scan is a pure function of its inputs — the method assigns
no attribute of the engine and touches no global, modelled by the
state-threading `Engine.run` returning the engine unchanged; a second
call on the state left by the first, with the identical quote snapshot
and symbols, produces the identical opportunity list. -/
theorem C8_purity :
    ∀ (e : Engine) (results : String → List FetchResult) (symbols : List String),
      (Engine.run e results symbols).1 = e ∧
      (Engine.run (Engine.run e results symbols).1 results symbols).2
        = (Engine.run e results symbols).2 :=
  fun _ _ _ => ⟨rfl, rfl⟩

/-- C9: every numeric field of an emitted opportunity is the
`round(·, 4)` image of the corresponding full-precision quantity, while
the positivity and threshold comparisons that decided the emission hold
for the unrounded values. -/
theorem C9_display_rounding :
    ∀ (cfg : FeesConfig) (thr : ℚ) (sym : String) (buy sell : ValidTicker)
      (opp : Opportunity),
      emitPair cfg thr sym buy sell = some opp →
      opp.buyPrice = round4 (pairEconomics cfg sym buy sell).buyPrice ∧
      opp.sellPrice = round4 (pairEconomics cfg sym buy sell).sellPrice ∧
      opp.grossProfitUsd = round4 ((pairEconomics cfg sym buy sell).sellPrice
        - (pairEconomics cfg sym buy sell).buyPrice) ∧
      opp.totalFeesUsd = round4 ((pairEconomics cfg sym buy sell).buyFeeUsd
        + (pairEconomics cfg sym buy sell).sellFeeUsd
        + (pairEconomics cfg sym buy sell).withdrawalFeeUsd) ∧
      opp.netProfitUsd = round4 (pairEconomics cfg sym buy sell).netProfitUsd ∧
      opp.profitPercentage = round4 ((pairEconomics cfg sym buy sell).netProfitUsd
        / (pairEconomics cfg sym buy sell).totalCostUsd * 100) ∧
      0 < (pairEconomics cfg sym buy sell).netProfitUsd ∧
      thr < (pairEconomics cfg sym buy sell).netProfitUsd
        / (pairEconomics cfg sym buy sell).totalCostUsd * 100 := by
  intro cfg thr sym buy sell opp h
  rw [emitPair_eq] at h
  split_ifs at h with hc
  · cases h
    exact ⟨rfl, rfl, rfl, rfl, rfl, rfl, hc.2.1, hc.2.2⟩

/-- Helper: `roundHalfEven` at a value whose fractional part is below a
half rounds down to the given integer. -/
lemma roundHalfEven_eq_down (x : ℚ) (n : ℤ) (h1 : (n : ℚ) ≤ x) (h2 : x - n < 1/2) :
    roundHalfEven x = n := by
  have hfloor : ⌊x⌋ = n := by
    rw [Int.floor_eq_iff]
    exact ⟨h1, by linarith⟩
  simp only [roundHalfEven, hfloor]
  rw [if_pos h2]

/-- Helper: `round(x, 4)` at a value whose fourth-decimal remainder is
below a half. -/
lemma round4_eq_down (x : ℚ) (n : ℤ) (h1 : (n : ℚ) ≤ x * 10000)
    (h2 : x * 10000 - n < 1/2) :
    round4 x = (n : ℚ) / 10000 := by
  rw [round4, roundHalfEven_eq_down (x * 10000) n h1 h2]

/-- The opportunity emitted for the spec's symmetry-breaking example at
threshold `1`: net profit `1.696`, profit percentage `≈ 1.6943`. -/
def oppX : Opportunity :=
  ⟨"X/USDT", "a", "b", 100, 102, 2, 38/125, 212/125, 16943/10000⟩

/-- C9 witness: the emitted example opportunity's fields are the rounded
full-precision quantities, and the unrounded profit and percentage pass
the checks. -/
theorem C9_display_rounding_witness :
    oppX.buyPrice = round4 (pairEconomics cfgAB "X/USDT" tickA tickB).buyPrice ∧
    oppX.sellPrice = round4 (pairEconomics cfgAB "X/USDT" tickA tickB).sellPrice ∧
    oppX.grossProfitUsd = round4 ((pairEconomics cfgAB "X/USDT" tickA tickB).sellPrice
      - (pairEconomics cfgAB "X/USDT" tickA tickB).buyPrice) ∧
    oppX.totalFeesUsd = round4 ((pairEconomics cfgAB "X/USDT" tickA tickB).buyFeeUsd
      + (pairEconomics cfgAB "X/USDT" tickA tickB).sellFeeUsd
      + (pairEconomics cfgAB "X/USDT" tickA tickB).withdrawalFeeUsd) ∧
    oppX.netProfitUsd = round4 (pairEconomics cfgAB "X/USDT" tickA tickB).netProfitUsd ∧
    oppX.profitPercentage = round4 ((pairEconomics cfgAB "X/USDT" tickA tickB).netProfitUsd
      / (pairEconomics cfgAB "X/USDT" tickA tickB).totalCostUsd * 100) ∧
    0 < (pairEconomics cfgAB "X/USDT" tickA tickB).netProfitUsd ∧
    (1 : ℚ) < (pairEconomics cfgAB "X/USDT" tickA tickB).netProfitUsd
      / (pairEconomics cfgAB "X/USDT" tickA tickB).totalCostUsd * 100 := by
  have r1 : round4 (100 : ℚ) = 100 := by
    rw [round4_eq_down (100 : ℚ) 1000000 (by norm_num) (by norm_num)]
    norm_num
  have r2 : round4 (102 : ℚ) = 102 := by
    rw [round4_eq_down (102 : ℚ) 1020000 (by norm_num) (by norm_num)]
    norm_num
  have r3 : round4 ((102 : ℚ) - 100) = 2 := by
    rw [round4_eq_down ((102 : ℚ) - 100) 20000 (by norm_num) (by norm_num)]
    norm_num
  have r4 : round4 ((100 : ℚ) * (1/1000) + 102 * (2/1000) + 0 * 100) = 38/125 := by
    rw [round4_eq_down ((100 : ℚ) * (1/1000) + 102 * (2/1000) + 0 * 100) 3040
      (by norm_num) (by norm_num)]
    norm_num
  have r5 : round4 (((102 : ℚ) - 102 * (2/1000)) - (100 + 100 * (1/1000)) - 0 * 100)
      = 212/125 := by
    rw [round4_eq_down (((102 : ℚ) - 102 * (2/1000)) - (100 + 100 * (1/1000)) - 0 * 100)
      16960 (by norm_num) (by norm_num)]
    norm_num
  have r6 : round4 ((((102 : ℚ) - 102 * (2/1000)) - (100 + 100 * (1/1000)) - 0 * 100)
        / (100 + 100 * (1/1000)) * 100)
      = 16943/10000 := by
    rw [round4_eq_down ((((102 : ℚ) - 102 * (2/1000)) - (100 + 100 * (1/1000)) - 0 * 100)
        / (100 + 100 * (1/1000)) * 100)
      16943 (by norm_num) (by norm_num)]
    norm_num
  have hEmit : emitPair cfgAB 1 "X/USDT" tickA tickB = some oppX := by
    rw [emitPair_eq, if_pos]
    · show some (⟨"X/USDT", "a", "b", round4 (100 : ℚ), round4 (102 : ℚ),
        round4 ((102 : ℚ) - 100),
        round4 ((100 : ℚ) * (1/1000) + 102 * (2/1000) + 0 * 100),
        round4 (((102 : ℚ) - 102 * (2/1000)) - (100 + 100 * (1/1000)) - 0 * 100),
        round4 ((((102 : ℚ) - 102 * (2/1000)) - (100 + 100 * (1/1000)) - 0 * 100)
          / (100 + 100 * (1/1000)) * 100)⟩ : Opportunity) = some oppX
      rw [r1, r2, r3, r4, r5, r6]
      rfl
    · refine ⟨?_, ?_, ?_⟩
      · show (100 : ℚ) < 102
        norm_num
      · show (0 : ℚ) < ((102 : ℚ) - 102 * (2/1000)) - (100 + 100 * (1/1000)) - 0 * 100
        norm_num
      · show (1 : ℚ) < (((102 : ℚ) - 102 * (2/1000)) - (100 + 100 * (1/1000)) - 0 * 100)
          / (100 + 100 * (1/1000)) * 100
        norm_num
  exact C9_display_rounding cfgAB 1 "X/USDT" tickA tickB oppX hEmit

/-- C10: a fetch result that is not a dict (an exception captured by the
gather) or that is a dict containing an `'error'` key is excluded from
the valid ticker set even when it carries bid and ask values, and the
per-symbol scan output is the same as if that venue's entry were absent
entirely — it can never contribute to any emitted opportunity. -/
theorem C10_error_results_excluded :
    ∀ (name : String) (r : FetchResult),
      ((∃ msg, r = FetchResult.exn msg) ∨
        ∃ d, r = FetchResult.dict d ∧ d.hasError = true) →
      tickerOf (name, r) = none ∧
      ∀ (cfg : FeesConfig) (thr : ℚ) (sym : String)
        (pre post : List (String × FetchResult)),
        scanSymbol cfg thr sym (validTickers (pre ++ (name, r) :: post))
          = scanSymbol cfg thr sym (validTickers (pre ++ post)) := by
  intro name r h
  have hnone : tickerOf (name, r) = none := by
    rcases h with ⟨msg, rfl⟩ | ⟨d, rfl, hd⟩
    · rfl
    · simp [tickerOf, hd]
  refine ⟨hnone, ?_⟩
  intro cfg thr sym pre post
  have hv : validTickers (pre ++ (name, r) :: post) = validTickers (pre ++ post) := by
    simp [validTickers, List.filterMap_append, List.filterMap_cons, hnone]
  rw [hv]

/-- C10 witness: a dict result carrying an `'error'` key together with
nonzero bid and ask is dropped, and scanning around it is unchanged. -/
theorem C10_error_results_excluded_witness :
    tickerOf ("x", FetchResult.dict ⟨true, some 1, some 2⟩) = none ∧
    scanSymbol cfgAB 0 "X/USDT"
        (validTickers ([("b", okB)] ++ ("x", FetchResult.dict ⟨true, some 1, some 2⟩)
          :: [("a", okA)]))
      = scanSymbol cfgAB 0 "X/USDT" (validTickers ([("b", okB)] ++ [("a", okA)])) :=
  ⟨(C10_error_results_excluded "x" (FetchResult.dict ⟨true, some 1, some 2⟩)
      (Or.inr ⟨⟨true, some 1, some 2⟩, rfl, rfl⟩)).1,
   (C10_error_results_excluded "x" (FetchResult.dict ⟨true, some 1, some 2⟩)
      (Or.inr ⟨⟨true, some 1, some 2⟩, rfl, rfl⟩)).2 cfgAB 0 "X/USDT"
      [("b", okB)] [("a", okA)]⟩

end Arbitrage
